import Mathlib

/-!
# Verification of the snake-game core of `obsidian-snake`

This file embeds the game-state machine of `src/main.ts`
(`SnakeGameModal`, wrapping boundary) into Lean, together with the
earlier bounded-boundary variant of the modal kept in
`src/unnamed/part_000`, and proves the testable properties of the
specification against them.

Modelling conventions:
* A snake segment in the source is `{x, y, actualX?, actualY?}`; the
  optional `actualX`/`actualY` fields are animation-only (rendering
  interpolation) and never read by the game logic, so a cell is just the
  integer pair `(x, y)`.  The `nextDirection` field of the modal is set
  in `initializeGame` but never read anywhere, so it is omitted too.
* `Math.random()` draws are modelled by a stream `draws : Nat → Nat × Nat`
  of raw numbers; `Math.floor(Math.random() * gridSize)` always lands in
  `[0, gridSize)`, which is rendered as `% gridSize`.
* The `do … while` loop of `generateFood` is given explicit fuel and
  returns `Option Cell`; `none` models the (accepted) case where the
  loop never finds a free cell within the fuel.  Consequently
  `updateGameState` is `tick : … → Option GameState`, with `none`
  exactly when the food-relocation loop fails to return.
* `score` is a `Nat` (it only ever grows by 10); `moveInterval` is an
  `Int` because the speed-increase subtraction is not clamped below.
-/

set_option autoImplicit false

namespace Snake

/-- One of the four movement directions (`'up' | 'down' | 'left' | 'right'`
in the source). -/
inductive Dir : Type where
  | up : Dir
  | down : Dir
  | left : Dir
  | right : Dir
deriving DecidableEq, Repr, Inhabited

/-- A grid cell: the `(x, y)` coordinate pair of a snake segment or the
food (`src/main.ts` lines 164-165, animation fields dropped). -/
@[ext]
structure Cell : Type where
  x : Nat
  y : Nat
deriving DecidableEq, Repr

instance : Inhabited Cell := ⟨⟨0, 0⟩⟩

/-- The settings fields of `SnakePluginSettings` that the game logic
reads: `gridSize`, `gameSpeed` (initial move interval) and
`speedIncrease`.  Colors, theming and animation toggles are
rendering-only and omitted. -/
structure Config : Type where
  gridSize : Nat
  gameSpeed : Int
  speedIncrease : Int
deriving DecidableEq, Repr

/-- The logical state of `SnakeGameModal`: snake body (head first), food
cell, current direction, pending input queue, score, current move
interval, and the game-over / paused flags. -/
structure GameState : Type where
  snake : List Cell
  food : Cell
  direction : Dir
  inputQueue : List Dir
  score : Nat
  moveInterval : Int
  gameOver : Bool
  isPaused : Bool
deriving DecidableEq, Repr

/-- `MAX_QUEUED_INPUTS` (`src/main.ts` line 184). -/
def MAX_QUEUED_INPUTS : Nat := 2

/-- The collision predicate used both by the self-collision check and by
the food-placement loop:
`snake.some(segment => segment.x === c.x && segment.y === c.y)`. -/
def collides (snake : List Cell) (c : Cell) : Bool :=
  snake.any fun segment => segment.x == c.x && segment.y == c.y

/-- The 180-degree reverse of a direction. -/
def reverseDir : Dir → Dir
  | Dir.up => Dir.down
  | Dir.down => Dir.up
  | Dir.left => Dir.right
  | Dir.right => Dir.left

/-- The reversal test at the heart of `isValidDirection`
(`src/main.ts` lines 245-250): `true` when `newDir` is allowed after
`lastDir`. -/
def noReverse (lastDir newDir : Dir) : Bool :=
  !((lastDir == Dir.up && newDir == Dir.down) ||
    (lastDir == Dir.down && newDir == Dir.up) ||
    (lastDir == Dir.left && newDir == Dir.right) ||
    (lastDir == Dir.right && newDir == Dir.left))

/-- `isValidDirection` (`src/main.ts` lines 241-251): the direction the
new one would follow is the most recently queued direction, or the
current direction when the queue is empty. -/
def isValidDirection (queue : List Dir) (direction : Dir) (newDir : Dir) : Bool :=
  let lastDir := queue.getLast?.getD direction
  noReverse lastDir newDir

/-- The input-admission step of `keyDownHandler`
(`src/main.ts` lines 233-236): push `newDir` onto the queue when it is a
valid direction and the queue is below `MAX_QUEUED_INPUTS`, otherwise
drop it silently. -/
def offer (s : GameState) (newDir : Dir) : GameState :=
  if isValidDirection s.inputQueue s.direction newDir
      && s.inputQueue.length < MAX_QUEUED_INPUTS then
    { s with inputQueue := s.inputQueue ++ [newDir] }
  else
    s

/-- `Math.floor(Math.random() * gridSize)` for both axes: a raw draw is
reduced into `[0, gridSize)`. -/
def drawCell (gridSize : Nat) (r : Nat × Nat) : Cell :=
  ⟨r.1 % gridSize, r.2 % gridSize⟩

/-- `generateFood` (`src/main.ts` lines 598-605): draw cells from the
stream starting at index `i`, rejecting while the candidate collides
with a snake cell; `fuel` bounds the number of draws, `none` models the
loop not returning within the fuel. -/
def generateFoodFuel (gridSize : Nat) (snake : List Cell)
    (draws : Nat → Nat × Nat) : Nat → Nat → Option Cell
  | _, 0 => none
  | i, fuel + 1 =>
    let c := drawCell gridSize (draws i)
    if collides snake c then generateFoodFuel gridSize snake draws (i + 1) fuel
    else some c

/-- Dequeueing of `inputQueue.shift()` at the start of a tick
(`src/main.ts` lines 435-437): the direction to use this tick and the
remaining queue. -/
def consumeQueue (s : GameState) : Dir × List Dir :=
  match s.inputQueue with
  | [] => (s.direction, [])
  | d :: rest => (d, rest)

/-- The head-advance of `updateGameState` (`src/main.ts` lines 440-446):
one step in the given direction, each coordinate wrapped modulo
`gridSize` (the source computes `(v - 1 + gridSize) % gridSize` for the
decreasing moves, written here as `(v + gridSize - 1) % gridSize`). -/
def moveHead (gridSize : Nat) (d : Dir) (c : Cell) : Cell :=
  match d with
  | Dir.up => ⟨c.x, (c.y + gridSize - 1) % gridSize⟩
  | Dir.down => ⟨c.x, (c.y + 1) % gridSize⟩
  | Dir.left => ⟨(c.x + gridSize - 1) % gridSize, c.y⟩
  | Dir.right => ⟨(c.x + 1) % gridSize, c.y⟩

/-- The new head cell a tick would commit: the current head
(`this.snake[0]`) advanced in the effective direction. -/
def newHead (cfg : Config) (s : GameState) : Cell :=
  moveHead cfg.gridSize (consumeQueue s).1 s.snake.headI

/-- `updateGameState` (`src/main.ts` lines 431-479): no-op when the game
is over or paused; otherwise consume the queued direction, advance the
head with wrapping, go to game-over on self-collision, else commit the
new head and either eat the food (score +10, relocate food, speed up
when enabled and above 50) or drop the tail.  `none` exactly when the
food-relocation loop exhausts its fuel. -/
def tick (cfg : Config) (draws : Nat → Nat × Nat) (fuel : Nat)
    (s : GameState) : Option GameState :=
  if s.gameOver || s.isPaused then some s
  else if collides s.snake (newHead cfg s) then
    some { s with
           direction := (consumeQueue s).1
           inputQueue := (consumeQueue s).2
           gameOver := true }
  else if newHead cfg s = s.food then
    match generateFoodFuel cfg.gridSize (newHead cfg s :: s.snake) draws 0 fuel with
    | none => none
    | some f =>
      some { s with
             direction := (consumeQueue s).1
             inputQueue := (consumeQueue s).2
             snake := newHead cfg s :: s.snake
             score := s.score + 10
             food := f
             moveInterval :=
               if 0 < cfg.speedIncrease ∧ 50 < s.moveInterval then
                 s.moveInterval - cfg.speedIncrease
               else s.moveInterval }
  else
    some { s with
           direction := (consumeQueue s).1
           inputQueue := (consumeQueue s).2
           snake := (newHead cfg s :: s.snake).dropLast }

/-- The state built by `initializeGame` (`src/main.ts` lines 289-301)
together with the initial food put in place by `onOpen` (line 329):
a single centered segment, direction right, score 0, move interval from
the settings, empty input queue. -/
def initState (cfg : Config) (f : Cell) : GameState :=
  { snake := [⟨cfg.gridSize / 2, cfg.gridSize / 2⟩]
    food := f
    direction := Dir.right
    inputQueue := []
    score := 0
    moveInterval := cfg.gameSpeed
    gameOver := false
    isPaused := false }

/-- A fresh game: `initializeGame` followed by the initial
`generateFood` call of `onOpen`; `none` when that call does not return
within the fuel. -/
def initGame (cfg : Config) (draws : Nat → Nat × Nat) (fuel : Nat) :
    Option GameState :=
  match generateFoodFuel cfg.gridSize [⟨cfg.gridSize / 2, cfg.gridSize / 2⟩]
      draws 0 fuel with
  | none => none
  | some f => some (initState cfg f)

/-- One raw (unwrapped) step in a direction, on integer coordinates
(`head.y--` / `head.y++` / `head.x--` / `head.x++`). -/
def rawMove (d : Dir) (p : Int × Int) : Int × Int :=
  match d with
  | Dir.up => (p.1, p.2 - 1)
  | Dir.down => (p.1, p.2 + 1)
  | Dir.left => (p.1 - 1, p.2)
  | Dir.right => (p.1 + 1, p.2)

/-- The state of the earlier bounded-boundary `SnakeGameModal` kept in
`src/unnamed/part_000` (second variant, lines 382-403): a single
pending `nextDirection` instead of an input queue, and no
`speedIncrease` setting.  The `gridSize` field of that modal is the
pixel size of one cell and rendering-only; the logical grid extent per
axis is `canvas.width / gridSize` (20 for the default 400-px canvas),
passed below as `cells`. -/
structure GameStateB : Type where
  snake : List Cell
  food : Cell
  direction : Dir
  nextDirection : Dir
  score : Nat
  moveInterval : Int
  gameOver : Bool
  isPaused : Bool
deriving DecidableEq, Repr

/-- The wall test of the bounded variant
(`src/unnamed/part_000` lines 631-633):
`head.x < 0 || head.x >= canvas.width / gridSize || head.y < 0 ||
head.y >= canvas.height / gridSize`, with `cells` the per-axis cell
count `canvas.width / gridSize`. -/
def hitsWall (cells : Nat) (p : Int × Int) : Bool :=
  p.1 < 0 || (cells : Int) ≤ p.1 || p.2 < 0 || (cells : Int) ≤ p.2

/-- The raw advanced head of the bounded variant: after
`this.direction = this.nextDirection`, one unwrapped step from
`this.snake[0]` in that direction. -/
def rawHeadB (s : GameStateB) : Int × Int :=
  rawMove s.nextDirection ((s.snake.headI.x : Int), (s.snake.headI.y : Int))

/-- The raw advanced head, back on grid coordinates, once the wall
check has passed (both components are then nonnegative). -/
def boundedHeadB (s : GameStateB) : Cell :=
  ⟨(rawHeadB s).1.toNat, (rawHeadB s).2.toNat⟩

/-- `updateGameState` of the bounded-boundary variant
(`src/unnamed/part_000` lines 614-670): no-op when over or paused;
adopt `nextDirection`; advance the head one raw step; a head outside
`[0, cells)` on either axis sets `gameOver` and returns with no further
mutation, as does self-collision; otherwise commit the head and either
eat (score +10, relocate food, subtract the fixed step 2 while the
interval exceeds 50) or drop the tail. -/
def updateGameStateB (cells : Nat) (draws : Nat → Nat × Nat) (fuel : Nat)
    (s : GameStateB) : Option GameStateB :=
  if s.gameOver || s.isPaused then some s
  else if hitsWall cells (rawHeadB s) then
    some { s with direction := s.nextDirection, gameOver := true }
  else if collides s.snake (boundedHeadB s) then
    some { s with direction := s.nextDirection, gameOver := true }
  else if boundedHeadB s = s.food then
    match generateFoodFuel cells (boundedHeadB s :: s.snake) draws 0 fuel with
    | none => none
    | some f =>
      some { s with
             direction := s.nextDirection
             snake := boundedHeadB s :: s.snake
             score := s.score + 10
             food := f
             moveInterval :=
               if 50 < s.moveInterval then s.moveInterval - 2
               else s.moveInterval }
  else
    some { s with
           direction := s.nextDirection
           snake := (boundedHeadB s :: s.snake).dropLast }

/-- The states reachable from a fresh game by any sequence of `tick` and
`offer` operations. -/
inductive Reachable (cfg : Config) : GameState → Prop where
  | start (draws : Nat → Nat × Nat) (fuel : Nat) (s : GameState) :
      initGame cfg draws fuel = some s → Reachable cfg s
  | step (draws : Nat → Nat × Nat) (fuel : Nat) (s s' : GameState) :
      Reachable cfg s → tick cfg draws fuel s = some s' → Reachable cfg s'
  | input (s : GameState) (d : Dir) :
      Reachable cfg s → Reachable cfg (offer s d)

/-! ## Basic lemmas -/

lemma collides_eq_true_iff (snake : List Cell) (c : Cell) :
    collides snake c = true ↔ c ∈ snake := by
  simp only [collides, List.any_eq_true, Bool.and_eq_true, beq_iff_eq]
  constructor
  · rintro ⟨seg, hseg, hx, hy⟩
    have : seg = c := Cell.ext hx hy
    simpa [this] using hseg
  · intro hc
    exact ⟨c, hc, rfl, rfl⟩

lemma collides_eq_false_iff (snake : List Cell) (c : Cell) :
    collides snake c = false ↔ c ∉ snake := by
  rw [← Bool.not_eq_true, not_iff_not]
  exact collides_eq_true_iff snake c

lemma offer_snake (s : GameState) (d : Dir) : (offer s d).snake = s.snake := by
  unfold offer; split <;> rfl

lemma offer_score (s : GameState) (d : Dir) : (offer s d).score = s.score := by
  unfold offer; split <;> rfl

lemma offer_moveInterval (s : GameState) (d : Dir) :
    (offer s d).moveInterval = s.moveInterval := by
  unfold offer; split <;> rfl

lemma generateFoodFuel_free (gridSize : Nat) (snake : List Cell)
    (draws : Nat → Nat × Nat) (i fuel : Nat) (c : Cell)
    (hgs : 0 < gridSize)
    (h : generateFoodFuel gridSize snake draws i fuel = some c) :
    c ∉ snake ∧ c.x < gridSize ∧ c.y < gridSize := by
  induction fuel generalizing i with
  | zero => simp [generateFoodFuel] at h
  | succ fuel ih =>
    rw [generateFoodFuel] at h
    by_cases hc : collides snake (drawCell gridSize (draws i)) = true
    · rw [if_pos hc] at h
      exact ih (i + 1) h
    · rw [if_neg hc] at h
      have hc' := (collides_eq_false_iff snake _).mp (Bool.eq_false_iff.mpr hc)
      obtain rfl : drawCell gridSize (draws i) = c := by
        simpa using h
      exact ⟨hc', Nat.mod_lt _ hgs, Nat.mod_lt _ hgs⟩

/-- The snake / score / length facts one `tick` preserves. -/
lemma tick_inv_step (cfg : Config) (draws : Nat → Nat × Nat) (fuel : Nat)
    (s s' : GameState) (ht : tick cfg draws fuel s = some s')
    (hnd : s.snake.Nodup) (hlen : 1 ≤ s.snake.length)
    (hsc : s.score = 10 * (s.snake.length - 1)) :
    s'.snake.Nodup ∧ 1 ≤ s'.snake.length ∧
      s'.score = 10 * (s'.snake.length - 1) := by
  rw [tick] at ht
  split at ht
  · injection ht with h
    subst h
    exact ⟨hnd, hlen, hsc⟩
  · split at ht
    · injection ht with h
      subst h
      exact ⟨hnd, hlen, hsc⟩
    · rename_i hcol
      have hmem : newHead cfg s ∉ s.snake :=
        (collides_eq_false_iff s.snake _).mp (Bool.eq_false_iff.mpr hcol)
      split at ht
      · split at ht
        · exact absurd ht (by simp)
        · injection ht with h
          subst h
          refine ⟨List.Nodup.cons hmem hnd, by simp, ?_⟩
          simp only [List.length_cons]
          omega
      · injection ht with h
        subst h
        refine ⟨?_, ?_, ?_⟩
        · exact (List.dropLast_sublist _).nodup (List.Nodup.cons hmem hnd)
        · simp only [List.length_dropLast, List.length_cons]
          omega
        · simp only [List.length_dropLast, List.length_cons]
          simpa using hsc

/-- Master reachability invariant: distinct snake cells, positive
length, and score locked to ten times the growth. -/
lemma reachable_inv (cfg : Config) (s : GameState) (h : Reachable cfg s) :
    s.snake.Nodup ∧ 1 ≤ s.snake.length ∧
      s.score = 10 * (s.snake.length - 1) := by
  induction h with
  | start draws fuel s hs =>
    unfold initGame at hs
    split at hs
    · exact absurd hs (by simp)
    · obtain rfl : initState cfg _ = s := by simpa using hs
      simp [initState]
  | step draws fuel s s' _ ht ih =>
    exact tick_inv_step cfg draws fuel s s' ht ih.1 ih.2.1 ih.2.2
  | input s d _ ih =>
    rw [offer_snake, offer_score] at *
    simpa [offer_snake, offer_score] using ih

lemma noReverse_eq_true_iff (lastDir newDir : Dir) :
    noReverse lastDir newDir = true ↔ newDir ≠ reverseDir lastDir := by
  cases lastDir <;> cases newDir <;> decide

lemma generateFoodFuel_of_free (gridSize : Nat) (snake : List Cell)
    (draws : Nat → Nat × Nat) :
    ∀ (k i : Nat), collides snake (drawCell gridSize (draws (i + k))) = false →
      ∃ c, generateFoodFuel gridSize snake draws i (k + 1) = some c := by
  intro k
  induction k with
  | zero =>
    intro i h
    rw [Nat.add_zero] at h
    refine ⟨drawCell gridSize (draws i), ?_⟩
    rw [generateFoodFuel, h]
    simp
  | succ k ih =>
    intro i h
    by_cases hc : collides snake (drawCell gridSize (draws i)) = true
    · have e : i + 1 + k = i + (k + 1) := by omega
      obtain ⟨c, hgen⟩ := ih (i + 1) (by rw [e]; exact h)
      refine ⟨c, ?_⟩
      rw [generateFoodFuel, hc]
      simpa using hgen
    · refine ⟨drawCell gridSize (draws i), ?_⟩
      rw [generateFoodFuel, Bool.eq_false_iff.mpr hc]
      simp

/-! ## Claim theorems -/

/-- Claim C6: `offer` appends the direction exactly when the queue is
below the cap of two and the direction is not the 180-degree reverse of
the most recently queued direction (or of the current direction when
the queue is empty); a failing offer leaves the state unchanged. -/
theorem offer_append_iff (s : GameState) (d : Dir) :
    ((offer s d).inputQueue = s.inputQueue ++ [d] ↔
      s.inputQueue.length < MAX_QUEUED_INPUTS ∧
        d ≠ reverseDir (s.inputQueue.getLast?.getD s.direction)) ∧
    (¬(s.inputQueue.length < MAX_QUEUED_INPUTS ∧
        d ≠ reverseDir (s.inputQueue.getLast?.getD s.direction)) →
      offer s d = s) := by
  have hval : isValidDirection s.inputQueue s.direction d = true ↔
      d ≠ reverseDir (s.inputQueue.getLast?.getD s.direction) := by
    unfold isValidDirection
    exact noReverse_eq_true_iff _ _
  by_cases h1 : s.inputQueue.length < MAX_QUEUED_INPUTS
  · by_cases h2 : d = reverseDir (s.inputQueue.getLast?.getD s.direction)
    · have hv : isValidDirection s.inputQueue s.direction d = false :=
        Bool.eq_false_iff.mpr fun hh => (hval.mp hh) h2
      have hoff : offer s d = s := by
        unfold offer
        rw [hv]
        simp
      constructor
      · constructor
        · intro h
          rw [hoff] at h
          have hlen := congrArg List.length h
          simp at hlen
        · rintro ⟨-, hne⟩
          exact absurd h2 hne
      · intro _
        exact hoff
    · have hv : isValidDirection s.inputQueue s.direction d = true := hval.mpr h2
      constructor
      · constructor
        · intro _
          exact ⟨h1, h2⟩
        · intro _
          unfold offer
          rw [hv]
          simp [h1]
      · intro hc
        exact absurd ⟨h1, h2⟩ hc
  · have hoff : offer s d = s := by
      unfold offer
      simp [h1]
    constructor
    · constructor
      · intro h
        rw [hoff] at h
        have hlen := congrArg List.length h
        simp at hlen
      · rintro ⟨hl, -⟩
        exact absurd hl h1
    · intro _
      exact hoff

/-- Claim C8: whatever cell the food-relocation loop returns lies on the
grid and does not coincide with any snake cell. -/
theorem generateFood_fresh (gridSize : Nat) (snake : List Cell)
    (draws : Nat → Nat × Nat) (fuel : Nat) (c : Cell)
    (hgs : 0 < gridSize)
    (h : generateFoodFuel gridSize snake draws 0 fuel = some c) :
    c ∉ snake ∧ c.x < gridSize ∧ c.y < gridSize :=
  generateFoodFuel_free gridSize snake draws 0 fuel c hgs h

theorem generateFood_fresh_witness :
    (⟨1, 1⟩ : Cell) ∉ [(⟨0, 0⟩ : Cell)] ∧ 1 < 2 ∧ 1 < 2 :=
  generateFood_fresh 2 [⟨0, 0⟩] (fun _ => (1, 1)) 1 ⟨1, 1⟩ (by decide)
    (by decide)

/-- Claim C9: the reject-and-redraw loop of `generateFood` returns after
finitely many draws whenever a free grid cell exists, for any draw
stream in which every grid cell eventually occurs (randomness is
modelled by such a fair stream). -/
theorem generateFood_terminates (gridSize : Nat) (snake : List Cell)
    (draws : Nat → Nat × Nat)
    (hfair : ∀ c : Cell, c.x < gridSize → c.y < gridSize →
      ∃ n, drawCell gridSize (draws n) = c)
    (hfree : ∃ c : Cell, c.x < gridSize ∧ c.y < gridSize ∧ c ∉ snake) :
    ∃ fuel c, generateFoodFuel gridSize snake draws 0 fuel = some c := by
  obtain ⟨c, hx, hy, hc⟩ := hfree
  obtain ⟨n, hn⟩ := hfair c hx hy
  have hcol : collides snake (drawCell gridSize (draws (0 + n))) = false := by
    rw [Nat.zero_add, hn]
    exact (collides_eq_false_iff snake c).mpr hc
  obtain ⟨c', hc'⟩ := generateFoodFuel_of_free gridSize snake draws n 0 hcol
  exact ⟨n + 1, c', hc'⟩

theorem generateFood_terminates_witness :
    ∃ fuel c, generateFoodFuel 1 [] (fun n => (n, n)) 0 fuel = some c := by
  refine generateFood_terminates 1 [] (fun n => (n, n)) ?_ ?_
  · intro c hx hy
    have hx0 : c.x = 0 := by omega
    have hy0 : c.y = 0 := by omega
    obtain rfl : c = (⟨0, 0⟩ : Cell) := Cell.ext (by rw [hx0]) (by rw [hy0])
    exact ⟨0, rfl⟩
  · exact ⟨⟨0, 0⟩, by decide, by decide, by decide⟩

/-- Claim C2: when the advanced head coincides with an existing snake
cell, the tick transitions to game-over and leaves snake body, score,
food and move interval unchanged. -/
theorem tick_self_collision_game_over (cfg : Config)
    (draws : Nat → Nat × Nat) (fuel : Nat) (s : GameState)
    (h1 : s.gameOver = false) (h2 : s.isPaused = false)
    (hcol : collides s.snake (newHead cfg s) = true) :
    ∃ s', tick cfg draws fuel s = some s' ∧ s'.gameOver = true ∧
      s'.snake = s.snake ∧ s'.score = s.score ∧ s'.food = s.food ∧
      s'.moveInterval = s.moveInterval := by
  refine ⟨{ s with
            direction := (consumeQueue s).1
            inputQueue := (consumeQueue s).2
            gameOver := true },
    ?_, rfl, rfl, rfl, rfl, rfl⟩
  rw [tick, if_neg (by simp [h1, h2]), if_pos hcol]

theorem tick_self_collision_game_over_witness :
    ∃ s', tick ⟨20, 150, 2⟩ (fun _ => (0, 0)) 1
        ⟨[⟨5, 5⟩, ⟨6, 5⟩, ⟨6, 6⟩, ⟨5, 6⟩], ⟨0, 0⟩, Dir.right, [], 0, 150,
          false, false⟩ = some s' ∧
      s'.gameOver = true ∧
      s'.snake = [⟨5, 5⟩, ⟨6, 5⟩, ⟨6, 6⟩, ⟨5, 6⟩] ∧ s'.score = 0 ∧
      s'.food = ⟨0, 0⟩ ∧ s'.moveInterval = 150 :=
  tick_self_collision_game_over ⟨20, 150, 2⟩ (fun _ => (0, 0)) 1
    ⟨[⟨5, 5⟩, ⟨6, 5⟩, ⟨6, 6⟩, ⟨5, 6⟩], ⟨0, 0⟩, Dir.right, [], 0, 150,
      false, false⟩ rfl rfl (by decide)

/-- Claim C4 (bounded boundary policy, the `updateGameState` of
`src/unnamed/part_000` lines 614-670): when advancing the head one step
in the effective direction yields coordinate `-1` or the grid extent on
either axis, the tick sets `gameOver` and leaves snake, score and food
unchanged. -/
theorem updateGameStateB_wall_game_over (cells : Nat)
    (draws : Nat → Nat × Nat) (fuel : Nat) (s : GameStateB)
    (h1 : s.gameOver = false) (h2 : s.isPaused = false)
    (hout : (rawHeadB s).1 = -1 ∨ (rawHeadB s).1 = (cells : Int) ∨
      (rawHeadB s).2 = -1 ∨ (rawHeadB s).2 = (cells : Int)) :
    ∃ s', updateGameStateB cells draws fuel s = some s' ∧
      s'.gameOver = true ∧
      s'.snake = s.snake ∧ s'.score = s.score ∧ s'.food = s.food := by
  have hwall : hitsWall cells (rawHeadB s) = true := by
    rcases hout with h | h | h | h <;> simp [hitsWall, h]
  refine ⟨{ s with direction := s.nextDirection, gameOver := true },
    ?_, rfl, rfl, rfl, rfl⟩
  rw [updateGameStateB, if_neg (by simp [h1, h2]), if_pos hwall]

theorem updateGameStateB_wall_game_over_witness :
    ∃ s', updateGameStateB 20 (fun _ => (0, 0)) 1
        ⟨[⟨0, 0⟩], ⟨5, 5⟩, Dir.up, Dir.up, 0, 150, false, false⟩
        = some s' ∧
      s'.gameOver = true ∧ s'.snake = [⟨0, 0⟩] ∧ s'.score = 0 ∧
      s'.food = ⟨5, 5⟩ :=
  updateGameStateB_wall_game_over 20 (fun _ => (0, 0)) 1
    ⟨[⟨0, 0⟩], ⟨5, 5⟩, Dir.up, Dir.up, 0, 150, false, false⟩ rfl rfl
    (by decide)

/-- Claim C5: a committed tick advances the head one step in the
effective direction with both coordinates wrapped modulo `gridSize`;
in particular at `x = gridSize - 1` moving right the new head has
`x = 0`. -/
theorem tick_wrapping (cfg : Config) (draws : Nat → Nat × Nat)
    (fuel : Nat) (s s' : GameState)
    (hgs : 0 < cfg.gridSize)
    (h1 : s.gameOver = false) (h2 : s.isPaused = false)
    (hne : s.snake ≠ [])
    (hcol : collides s.snake (newHead cfg s) = false)
    (ht : tick cfg draws fuel s = some s') :
    s'.snake.headI = moveHead cfg.gridSize (consumeQueue s).1 s.snake.headI ∧
    ((consumeQueue s).1 = Dir.right → s.snake.headI.x = cfg.gridSize - 1 →
      s'.snake.headI.x = 0) := by
  have hhead : s'.snake.headI = newHead cfg s := by
    rw [tick, if_neg (by simp [h1, h2]),
      if_neg (by simp [hcol])] at ht
    split at ht
    · split at ht
      · exact absurd ht (by simp)
      · injection ht with h
        subst h
        rfl
    · injection ht with h
      subst h
      obtain ⟨a, t, hs⟩ : ∃ a t, s.snake = a :: t := by
        cases hsn : s.snake with
        | nil => exact absurd hsn hne
        | cons a t => exact ⟨a, t, rfl⟩
      simp only [hs, List.dropLast_cons₂, List.headI]
  refine ⟨?_, ?_⟩
  · rw [hhead]
    rfl
  · intro hdir hx
    rw [hhead]
    unfold newHead
    rw [hdir]
    unfold moveHead
    simp only
    rw [hx]
    have e : cfg.gridSize - 1 + 1 = cfg.gridSize := by omega
    rw [e, Nat.mod_self]

theorem tick_wrapping_witness :
    ((⟨[⟨0, 5⟩], ⟨3, 3⟩, Dir.right, [], 0, 150, false, false⟩ :
        GameState)).snake.headI =
      moveHead 20 Dir.right (⟨19, 5⟩ : Cell) ∧
    (Dir.right = Dir.right → (19 : Nat) = 20 - 1 →
      ((⟨[⟨0, 5⟩], ⟨3, 3⟩, Dir.right, [], 0, 150, false, false⟩ :
        GameState)).snake.headI.x = 0) := by
  have h := tick_wrapping ⟨20, 150, 2⟩ (fun _ => (0, 0)) 1
    ⟨[⟨19, 5⟩], ⟨3, 3⟩, Dir.right, [], 0, 150, false, false⟩
    ⟨[⟨0, 5⟩], ⟨3, 3⟩, Dir.right, [], 0, 150, false, false⟩
    (by decide) rfl rfl (by decide) (by decide) (by decide)
  exact h

/-- Claim C1: in every state reachable from a fresh game by `tick` and
`offer` operations, while the game is not over no two snake cells share
coordinates and the snake length is at least one. -/
theorem reachable_snake_nodup (cfg : Config) (s : GameState)
    (h : Reachable cfg s) (_halive : s.gameOver = false) :
    s.snake.Nodup ∧ 1 ≤ s.snake.length :=
  ⟨(reachable_inv cfg s h).1, (reachable_inv cfg s h).2.1⟩

theorem reachable_snake_nodup_witness :
    (initState ⟨20, 150, 2⟩ ⟨0, 0⟩).snake.Nodup ∧
      1 ≤ (initState ⟨20, 150, 2⟩ ⟨0, 0⟩).snake.length :=
  reachable_snake_nodup ⟨20, 150, 2⟩ (initState ⟨20, 150, 2⟩ ⟨0, 0⟩)
    (Reachable.start (fun _ => (0, 0)) 1 _ (by decide)) rfl

/-- Claim C10: in every reachable state the score is ten times the
snake growth: `score = 10 * (length - 1)`. -/
theorem score_tracks_length (cfg : Config) (s : GameState)
    (h : Reachable cfg s) :
    s.score = 10 * (s.snake.length - 1) :=
  (reachable_inv cfg s h).2.2

theorem score_tracks_length_witness :
    (initState ⟨10, 100, 0⟩ ⟨1, 2⟩).score =
      10 * ((initState ⟨10, 100, 0⟩ ⟨1, 2⟩).snake.length - 1) :=
  score_tracks_length ⟨10, 100, 0⟩ (initState ⟨10, 100, 0⟩ ⟨1, 2⟩)
    (Reachable.start (fun _ => (1, 2)) 1 _ (by decide))

/-- Claim C3: on a committed tick, eating the food adds exactly 10 to
the score, relocates the food and grows the snake by one cell (the tail
stays); otherwise the tail cell is dropped and the length is
unchanged. -/
theorem tick_food_growth (cfg : Config) (draws : Nat → Nat × Nat)
    (fuel : Nat) (s : GameState) (f : Cell)
    (h1 : s.gameOver = false) (h2 : s.isPaused = false)
    (hcol : collides s.snake (newHead cfg s) = false)
    (hgen : newHead cfg s = s.food →
      generateFoodFuel cfg.gridSize (newHead cfg s :: s.snake) draws 0 fuel
        = some f) :
    ∃ s', tick cfg draws fuel s = some s' ∧
      (newHead cfg s = s.food →
        s'.score = s.score + 10 ∧ s'.food = f ∧
        s'.snake = newHead cfg s :: s.snake ∧
        s'.snake.length = s.snake.length + 1) ∧
      (newHead cfg s ≠ s.food →
        s'.score = s.score ∧ s'.food = s.food ∧
        s'.snake = (newHead cfg s :: s.snake).dropLast ∧
        s'.snake.length = s.snake.length) := by
  by_cases heat : newHead cfg s = s.food
  · refine ⟨{ s with
              direction := (consumeQueue s).1
              inputQueue := (consumeQueue s).2
              snake := newHead cfg s :: s.snake
              score := s.score + 10
              food := f
              moveInterval :=
                if 0 < cfg.speedIncrease ∧ 50 < s.moveInterval then
                  s.moveInterval - cfg.speedIncrease
                else s.moveInterval }, ?_, ?_, ?_⟩
    · rw [tick, if_neg (by simp [h1, h2]), if_neg (by simp [hcol]),
        if_pos heat, hgen heat]
    · intro _
      exact ⟨rfl, rfl, rfl, rfl⟩
    · intro hne
      exact absurd heat hne
  · refine ⟨{ s with
              direction := (consumeQueue s).1
              inputQueue := (consumeQueue s).2
              snake := (newHead cfg s :: s.snake).dropLast }, ?_, ?_, ?_⟩
    · rw [tick, if_neg (by simp [h1, h2]), if_neg (by simp [hcol]),
        if_neg heat]
    · intro hcontra
      exact absurd hcontra heat
    · intro _
      refine ⟨rfl, rfl, rfl, ?_⟩
      simp only [List.length_dropLast, List.length_cons]
      omega

theorem tick_food_growth_witness :
    ∃ s', tick ⟨20, 150, 2⟩ (fun _ => (0, 0)) 1
        ⟨[⟨10, 10⟩], ⟨11, 10⟩, Dir.right, [], 0, 150, false, false⟩
        = some s' ∧
      (newHead ⟨20, 150, 2⟩
          ⟨[⟨10, 10⟩], ⟨11, 10⟩, Dir.right, [], 0, 150, false, false⟩ =
        (⟨11, 10⟩ : Cell) →
        s'.score = 0 + 10 ∧ s'.food = (⟨0, 0⟩ : Cell) ∧
        s'.snake = newHead ⟨20, 150, 2⟩
          ⟨[⟨10, 10⟩], ⟨11, 10⟩, Dir.right, [], 0, 150, false, false⟩ ::
            [⟨10, 10⟩] ∧
        s'.snake.length = [(⟨10, 10⟩ : Cell)].length + 1) ∧
      (newHead ⟨20, 150, 2⟩
          ⟨[⟨10, 10⟩], ⟨11, 10⟩, Dir.right, [], 0, 150, false, false⟩ ≠
        (⟨11, 10⟩ : Cell) →
        s'.score = 0 ∧ s'.food = (⟨11, 10⟩ : Cell) ∧
        s'.snake = (newHead ⟨20, 150, 2⟩
          ⟨[⟨10, 10⟩], ⟨11, 10⟩, Dir.right, [], 0, 150, false, false⟩ ::
            [⟨10, 10⟩]).dropLast ∧
        s'.snake.length = [(⟨10, 10⟩ : Cell)].length) :=
  tick_food_growth ⟨20, 150, 2⟩ (fun _ => (0, 0)) 1
    ⟨[⟨10, 10⟩], ⟨11, 10⟩, Dir.right, [], 0, 150, false, false⟩ ⟨0, 0⟩
    rfl rfl (by decide) (by decide)

/-- How one tick can change the move interval: unchanged, or (only when
it was above 50) decreased by the full configured step. -/
lemma tick_moveInterval (cfg : Config) (draws : Nat → Nat × Nat)
    (fuel : Nat) (s s' : GameState)
    (ht : tick cfg draws fuel s = some s') :
    s'.moveInterval = s.moveInterval ∨
      (50 < s.moveInterval ∧
        s'.moveInterval = s.moveInterval - cfg.speedIncrease) := by
  rw [tick] at ht
  split at ht
  · injection ht with h
    subst h
    exact Or.inl rfl
  · split at ht
    · injection ht with h
      subst h
      exact Or.inl rfl
    · split at ht
      · split at ht
        · exact absurd ht (by simp)
        · injection ht with h
          rw [← h]
          by_cases hsp : 0 < cfg.speedIncrease ∧ 50 < s.moveInterval
          · exact Or.inr ⟨hsp.2, by simp [hsp]⟩
          · exact Or.inl (by simp [hsp])
      · injection ht with h
        subst h
        exact Or.inl rfl

/-- Claim C7 (amended): with speed-increase enabled (step at least 1)
and an initial interval of at least 50, every reachable move interval
is at least `51 - step`; a food tick subtracts the whole step whenever
the interval is above 50, so a single decrease may undershoot 50. -/
theorem moveInterval_lower_bound (cfg : Config) (s : GameState)
    (hstep : 1 ≤ cfg.speedIncrease) (hinit : 50 ≤ cfg.gameSpeed)
    (h : Reachable cfg s) :
    51 - cfg.speedIncrease ≤ s.moveInterval := by
  induction h with
  | start draws fuel s hs =>
    unfold initGame at hs
    split at hs
    · exact absurd hs (by simp)
    · injection hs with h
      subst h
      show 51 - cfg.speedIncrease ≤ cfg.gameSpeed
      omega
  | step draws fuel s s' hr ht ih =>
    rcases tick_moveInterval cfg draws fuel s s' ht with hmi | ⟨hgt, hmi⟩
    · rw [hmi]
      exact ih
    · rw [hmi]
      omega
  | input s d hr ih =>
    rw [offer_moveInterval]
    exact ih

theorem moveInterval_lower_bound_witness :
    51 - (⟨20, 150, 2⟩ : Config).speedIncrease ≤
      (initState ⟨20, 150, 2⟩ ⟨7, 7⟩).moveInterval :=
  moveInterval_lower_bound ⟨20, 150, 2⟩ (initState ⟨20, 150, 2⟩ ⟨7, 7⟩)
    (by decide) (by decide)
    (Reachable.start (fun _ => (7, 7)) 1 _ (by decide))

/-- Claim C7 fails as stated: with grid size 20, initial interval 52
(at least 50) and step 3 enabled, one food-eating tick reaches a state
whose move interval is 49, below the claimed floor of 50 — the source
checks `moveInterval > 50` before subtracting and never clamps the
result. -/
theorem moveInterval_floor_counterexample :
    1 ≤ (⟨20, 52, 3⟩ : Config).speedIncrease ∧
    50 ≤ (⟨20, 52, 3⟩ : Config).gameSpeed ∧
    Reachable ⟨20, 52, 3⟩
      ⟨[⟨11, 10⟩, ⟨10, 10⟩], ⟨0, 0⟩, Dir.right, [], 10, 49, false, false⟩ ∧
    (⟨[⟨11, 10⟩, ⟨10, 10⟩], ⟨0, 0⟩, Dir.right, [], 10, 49, false, false⟩ :
      GameState).moveInterval < 50 := by
  refine ⟨by decide, by decide, ?_, by decide⟩
  refine Reachable.step (fun _ => (0, 0)) 1
    (initState ⟨20, 52, 3⟩ ⟨11, 10⟩) _ ?_ ?_
  · exact Reachable.start (fun _ => (11, 10)) 1 _ (by decide)
  · decide

end Snake
